import Mathlib

/-!
# Verification of the `epub-rs` EPUB reading library

A shallow embedding, in Lean 4, of the core data model and operations of the
`epub-rs` crate (modules `src/xmlutils.rs`, `src/doc.rs`, `src/archive.rs`),
together with theorems settling a list of specification claims about it.

Modelling conventions:
* Rust `String`/`&str` become Lean `String`; byte buffers (`Vec<u8>`, `&[u8]`)
  become `List Nat` (each element a byte value);
* `PathBuf` becomes `String` (paths in the library are forward-slash joined
  relative archive paths); `Path::components` is modelled by splitting on `/`
  and dropping empty and `.` segments, exactly the segments the library's
  component loops either push, pop (`..`), or ignore;
* `Option<T>` / `Result<T, E>` become `Option` / `Except`;
* `HashMap` becomes an association list with insert-replaces-existing-key
  semantics (only keyed lookup, keyed removal and insertion are used);
* the external `xml-rs` streaming parser and the `zip` crate are collaborator
  boundaries: the event stream fed to `replace_attrs` is taken as a list of
  events, and the zip archive as a map from entry names to lookup outcomes;
* a Rust panic (out-of-bounds slice index) is modelled by an explicit
  constructor of the result type.
-/

/-! ## XML tree data model (`src/xmlutils.rs`, `XMLNode`) -/

/-- A qualified XML name: local name plus optional namespace URI
(`xml::name::OwnedName`). -/
structure OwnedName where
  local_name : String
  ns : Option String
deriving DecidableEq, Repr

/-- An XML attribute (`xml::attribute::OwnedAttribute`): qualified name and
value. -/
structure OwnedAttribute where
  name : OwnedName
  value : String
deriving DecidableEq, Repr

/-- A node of the XML tree built by `XMLReader::parse` (`XMLNode` in
`src/xmlutils.rs`): qualified name, attributes, aggregated text, CDATA
content and ordered children. The source's non-owning parent back-reference
is representation-only (it carries no information beyond tree shape) and is
omitted. -/
inductive XMLNode : Type where
  | mk : OwnedName → List OwnedAttribute → Option String → Option String →
      List XMLNode → XMLNode

def XMLNode.name : XMLNode → OwnedName
  | .mk n _ _ _ _ => n

def XMLNode.attrs : XMLNode → List OwnedAttribute
  | .mk _ a _ _ _ => a

def XMLNode.text : XMLNode → Option String
  | .mk _ _ t _ _ => t

def XMLNode.cdata : XMLNode → Option String
  | .mk _ _ _ c _ => c

def XMLNode.children : XMLNode → List XMLNode
  | .mk _ _ _ _ c => c

/-- `XMLNode::get_attr`: the value of the first attribute whose local name
matches, ignoring namespaces. The source returns
`Result<String, XMLError>` with an `attr not found` error; callers in
`doc.rs` consume it as an option, which is how it is modelled. -/
def XMLNode.get_attr (node : XMLNode) (name : String) : Option String :=
  (node.attrs.find? (fun attr => attr.name.local_name = name)).map
    (fun attr => attr.value)

mutual

/-- `XMLNode::find`: depth-first pre-order search over the descendants of a
node (not the node itself) for the first node whose local name equals
`tag`. -/
def XMLNode.find : XMLNode → String → Option XMLNode
  | .mk _ _ _ _ children, tag => XMLNode.findInList children tag

/-- The loop body of `XMLNode::find`: scan children in order; a child whose
local name matches wins, otherwise its own subtree is searched before
moving to the next sibling. -/
def XMLNode.findInList : List XMLNode → String → Option XMLNode
  | [], _ => none
  | c :: cs, tag =>
    if c.name.local_name = tag then some c
    else
      match XMLNode.find c tag with
      | some n => some n
      | none => XMLNode.findInList cs tag

end

/-! ## `XMLReader::parse` input dispatch (`src/xmlutils.rs` lines 28-59)

`parse` inspects the first bytes of the buffer before handing it to the
streaming parser: a UTF-8 BOM is stripped, a UTF-16 BOM causes the remainder
to be decoded (native-endian `u16` assembly on a little-endian host) and fed
as UTF-8, anything else is fed raw.  The inspection slices `content[0..3]`
unconditionally, and Rust range indexing panics when the slice is shorter
than the range, so buffers of fewer than 3 bytes abort the process. -/

/-- Outcome of the byte-prefix dispatch at the top of `XMLReader::parse`:
either the process panics (out-of-range slice index), or some byte content is
handed to the underlying `xml-rs` event reader, or the UTF-16 code units
assembled from the buffer are handed to `String::from_utf16_lossy` and the
resulting string is fed to the reader. -/
inductive ParseDispatch : Type where
  | panics
  | feed (bytes : List Nat)
  | feedUtf16 (units : List Nat)
deriving DecidableEq, Repr

/-- `chunks_exact(2)` + `u16::from_ne_bytes([a[1], a[0]])` on a little-endian
host: big-endian 16-bit units, trailing odd byte dropped. -/
def utf16UnitsBE : List Nat → List Nat
  | a :: b :: rest => (a * 256 + b) :: utf16UnitsBE rest
  | _ => []

/-- `chunks_exact(2)` + `u16::from_ne_bytes([a[0], a[1]])` on a little-endian
host: little-endian 16-bit units, trailing odd byte dropped. -/
def utf16UnitsLE : List Nat → List Nat
  | a :: b :: rest => (b * 256 + a) :: utf16UnitsLE rest
  | _ => []

/-- The byte-prefix dispatch of `XMLReader::parse` (`src/xmlutils.rs` lines
31-48).  `content[0..3]` is evaluated before any comparison, so any buffer
shorter than 3 bytes panics; there is no length guard and no
"no content" / content-too-short error path anywhere in the function. -/
def XMLReader.parseDispatch (content : List Nat) : ParseDispatch :=
  if content.length < 3 then
    ParseDispatch.panics
  else if content.take 3 = [0xef, 0xbb, 0xbf] then
    ParseDispatch.feed (content.drop 3)
  else if content.take 2 = [0xfe, 0xff] then
    ParseDispatch.feedUtf16 (utf16UnitsBE (content.drop 2))
  else if content.take 2 = [0xff, 0xfe] then
    ParseDispatch.feedUtf16 (utf16UnitsLE (content.drop 2))
  else
    ParseDispatch.feed content

/-! ## Claim theorems -/

/-- C1: the claim says every input buffer shorter than 4 bytes is rejected
with a "no content" error and never panics.  The code has no length guard:
`content[0..3]` is evaluated first, and Rust range indexing panics for
buffers of length 0, 1 or 2; a 3-byte buffer is fed straight to the XML
event reader rather than rejected.  The result type `ParseDispatch` has no
error constructor because the source function has no content-too-short error
path at all.  This theorem evaluates the model at the failing inputs. -/
theorem c1_parse_short_buffer_panics :
    XMLReader.parseDispatch [] = ParseDispatch.panics ∧
    XMLReader.parseDispatch [0x3c] = ParseDispatch.panics ∧
    XMLReader.parseDispatch [0x3c, 0x61] = ParseDispatch.panics ∧
    XMLReader.parseDispatch [0x3c, 0x61, 0x3e] = ParseDispatch.feed [0x3c, 0x61, 0x3e] := by
  decide

/-! ## Archive accessor (`src/archive.rs`)

The zip container is the external collaborator: it is modelled as a map from
entry names to lookup outcomes, covering the cases `EpubArchive::get_entry`
distinguishes: entry found and fully read, entry found but the read fails
with an I/O error, `FileNotFound`, and any other zip error. -/

/-- Outcome of `zip.by_name(name)` followed by `read_to_end` for one name. -/
inductive ZipEntryOutcome : Type where
  | found (bytes : List Nat)
  | readErr
  | notFound
  | otherErr
deriving DecidableEq, Repr

/-- The zip archive collaborator: `by_name` lookup only (the file list is not
used by the operations under verification). -/
structure ZipArchive : Type where
  by_name : String → ZipEntryOutcome

/-- `ArchiveError` (`src/archive.rs` lines 21-31): I/O error, zip error,
invalid UTF-8 content, non-UTF-8 path. -/
inductive ArchiveError : Type where
  | io
  | zip
  | utf8
  | pathUtf8
deriving DecidableEq, Repr

/-- UTF-8 encoding of one unicode scalar value. -/
def utf8EncodeChar (c : Nat) : List Nat :=
  if c < 0x80 then [c]
  else if c < 0x800 then [0xc0 + c / 64, 0x80 + c % 64]
  else if c < 0x10000 then
    [0xe0 + c / 4096, 0x80 + (c / 64) % 64, 0x80 + c % 64]
  else
    [0xf0 + c / 262144, 0x80 + (c / 4096) % 64, 0x80 + (c / 64) % 64,
      0x80 + c % 64]

/-- The UTF-8 bytes of a string (`str::as_bytes`). -/
def utf8Encode (s : String) : List Nat :=
  (s.data.map (fun c => utf8EncodeChar c.toNat)).flatten

/-- Is `b` a UTF-8 continuation byte? -/
def utf8Cont (b : Nat) : Prop := 0x80 ≤ b ∧ b < 0xc0

instance (b : Nat) : Decidable (utf8Cont b) := by
  unfold utf8Cont; infer_instance

/-- Strict UTF-8 decoding to unicode scalar values, rejecting overlong
encodings, surrogates and values above U+10FFFF — the validation performed
by Rust's `String::from_utf8` / `decode_utf8`. -/
def utf8DecodeScalars : List Nat → Option (List Nat)
  | [] => some []
  | b :: rest =>
    if b < 0x80 then
      (utf8DecodeScalars rest).map (fun vs => b :: vs)
    else if b < 0xc2 then none
    else if b < 0xe0 then
      match rest with
      | b1 :: rest' =>
        if utf8Cont b1 then
          (utf8DecodeScalars rest').map
            (fun vs => ((b - 0xc0) * 64 + (b1 - 0x80)) :: vs)
        else none
      | [] => none
    else if b < 0xf0 then
      match rest with
      | b1 :: b2 :: rest' =>
        let v := (b - 0xe0) * 4096 + (b1 - 0x80) * 64 + (b2 - 0x80)
        if utf8Cont b1 ∧ utf8Cont b2 ∧ 0x800 ≤ v ∧ ¬(0xd800 ≤ v ∧ v < 0xe000)
        then (utf8DecodeScalars rest').map (fun vs => v :: vs)
        else none
      | _ => none
    else if b < 0xf5 then
      match rest with
      | b1 :: b2 :: b3 :: rest' =>
        let v := (b - 0xf0) * 262144 + (b1 - 0x80) * 4096 +
          (b2 - 0x80) * 64 + (b3 - 0x80)
        if utf8Cont b1 ∧ utf8Cont b2 ∧ utf8Cont b3 ∧ 0x10000 ≤ v ∧
            v < 0x110000
        then (utf8DecodeScalars rest').map (fun vs => v :: vs)
        else none
      | _ => none
    else none

/-- Strict UTF-8 decoding of a byte buffer to a string
(`String::from_utf8`): `none` on invalid UTF-8. -/
def utf8Decode (bytes : List Nat) : Option String :=
  (utf8DecodeScalars bytes).map (fun vs => ⟨vs.map Char.ofNat⟩)

/-- Value of an ASCII hex digit byte. -/
def hexDigitVal (b : Nat) : Option Nat :=
  if 0x30 ≤ b ∧ b ≤ 0x39 then some (b - 0x30)
  else if 0x41 ≤ b ∧ b ≤ 0x46 then some (b - 0x41 + 10)
  else if 0x61 ≤ b ∧ b ≤ 0x66 then some (b - 0x61 + 10)
  else none

/-- `percent_encoding::percent_decode`: each `%XY` hex escape becomes the
byte `0xXY`; a `%` not followed by two hex digits is kept literally. -/
def percentDecode : List Nat → List Nat
  | [] => []
  | 0x25 :: a :: b :: rest =>
    match hexDigitVal a, hexDigitVal b with
    | some ha, some hb => (ha * 16 + hb) :: percentDecode rest
    | _, _ => 0x25 :: percentDecode (a :: b :: rest)
  | b :: rest => b :: percentDecode rest

/-- `EpubArchive::get_entry` (`src/archive.rs` lines 77-98): exact-name
lookup first; on `FileNotFound`, retry with the percent-decoded name
(failing with a UTF-8 error if the decoded bytes are not valid UTF-8); every
error of the retry — including a second `FileNotFound` — propagates.  In
the model path names are always valid UTF-8 strings, so the
`ArchiveError::PathUtf8` arm of the source cannot fire. -/
def EpubArchive.get_entry (z : ZipArchive) (name : String) :
    Except ArchiveError (List Nat) :=
  match z.by_name name with
  | .found bytes => .ok bytes
  | .readErr => .error .io
  | .otherErr => .error .zip
  | .notFound =>
    match utf8Decode (percentDecode (utf8Encode name)) with
    | none => .error .utf8
    | some decoded =>
      match z.by_name decoded with
      | .found bytes => .ok bytes
      | .readErr => .error .io
      | .otherErr => .error .zip
      | .notFound => .error .zip

/-- `EpubArchive::get_entry_as_str` (`src/archive.rs` lines 105-108):
`get_entry` then strict UTF-8 validation of the content. -/
def EpubArchive.get_entry_as_str (z : ZipArchive) (name : String) :
    Except ArchiveError String :=
  match EpubArchive.get_entry z name with
  | .error e => .error e
  | .ok bytes =>
    match utf8Decode bytes with
    | some s => .ok s
    | none => .error .utf8

/-! ## EPUB document data model (`src/doc.rs`) -/

/-- `EpubVersion` (`src/doc.rs` lines 34-39). -/
inductive EpubVersion : Type where
  | version2_0
  | version3_0
  | unknown (s : String)
deriving DecidableEq, Repr

/-- `SpineItem` (`src/doc.rs` lines 103-109). -/
structure SpineItem : Type where
  idref : String
  id : Option String
  properties : Option String
  linear : Bool
deriving DecidableEq, Repr

/-- `MetadataRefinement` (`src/doc.rs` lines 75-81). -/
structure MetadataRefinement : Type where
  property : String
  value : String
  lang : Option String
  scheme : Option String
deriving DecidableEq, Repr

/-- `MetadataItem` (`src/doc.rs` lines 88-95). -/
structure MetadataItem : Type where
  id : Option String
  property : String
  value : String
  lang : Option String
  refined : List MetadataRefinement
deriving DecidableEq, Repr

/-- `NavPoint` (`src/doc.rs` lines 42-52): label, resolved content path,
nested children, play order. -/
inductive NavPoint : Type where
  | mk : String → String → List NavPoint → Nat → NavPoint

def NavPoint.label : NavPoint → String
  | .mk l _ _ _ => l

def NavPoint.content : NavPoint → String
  | .mk _ c _ _ => c

def NavPoint.children : NavPoint → List NavPoint
  | .mk _ _ c _ => c

def NavPoint.play_order : NavPoint → Nat
  | .mk _ _ _ o => o

/-- Association-list lookup standing in for `HashMap::get`: the value at the
(unique) matching key. -/
def hmGet {α : Type} (m : List (String × α)) (k : String) : Option α :=
  (m.find? (fun e => e.1 == k)).map (fun e => e.2)

/-- Association-list insert standing in for `HashMap::insert`: replaces the
value at an existing key, otherwise adds the binding. -/
def hmInsert {α : Type} (m : List (String × α)) (k : String) (v : α) :
    List (String × α) :=
  if m.any (fun e => e.1 == k) then
    m.map (fun e => if e.1 == k then (k, v) else e)
  else m ++ [(k, v)]

/-- Association-list removal standing in for `HashMap::remove`: the removed
value (if any) together with the remaining map. -/
def hmRemove {α : Type} (m : List (String × α)) (k : String) :
    Option α × List (String × α) :=
  (hmGet m k, m.filter (fun e => e.1 != k))

/-- Rust `str::starts_with`: `startsWithStr s p` is true when `p` is a
prefix of `s` (list-of-characters prefix test, which the kernel can
evaluate). -/
def startsWithStr (s p : String) : Bool :=
  p.data.isPrefixOf s.data

/-- ASCII lowercasing of a string, modelling `eq_ignore_ascii_case` and
Rust `to_lowercase` on the ASCII tag names involved. -/
def strToLower (s : String) : String :=
  ⟨s.data.map (fun c =>
    if 65 ≤ c.toNat ∧ c.toNat ≤ 90 then Char.ofNat (c.toNat + 32) else c)⟩

/-- `PathBuf::join` for the forward-slash relative paths the library works
with: an absolute right operand replaces the base, otherwise the two are
joined with a separator. -/
def pathJoin (base p : String) : String :=
  if startsWithStr p "/" then p
  else if base = "" then p
  else base ++ "/" ++ p

/-- Split a character list at a separator character (the list-level
equivalent of `String::split`). -/
def splitChars (sep : Char) : List Char → List Char → List String
  | [], acc => [⟨acc.reverse⟩]
  | c :: rest, acc =>
    if c = sep then ⟨acc.reverse⟩ :: splitChars sep rest []
    else splitChars sep rest (c :: acc)

/-- Split a string on a separator character. -/
def splitOnChar (s : String) (sep : Char) : List String :=
  splitChars sep s.data []

/-- `Path::components` restricted to what the library's component loops
distinguish: splitting on `/`, empty and `.` segments are dropped (the
source ignores `CurDir`/`RootDir`/prefix components), `..` and normal
segments are kept. -/
def pathComponents (p : String) : List String :=
  (splitOnChar p '/').filter (fun s => !(s == "" || s == "."))

/-- The document state (`EpubDoc`, `src/doc.rs` lines 118-169). -/
structure DocState : Type where
  archive : ZipArchive
  current : Nat
  version : EpubVersion
  spine : List SpineItem
  resources : List (String × (String × String))
  toc : List NavPoint
  toc_title : String
  metadata : List MetadataItem
  root_base : String
  root_file : String
  extra_css : List String
  unique_identifier : Option String
  cover_id : Option String

/-! ## Resource lookup (`src/doc.rs` lines 354-388) -/

/-- `EpubDoc::get_resource_by_path`: `self.archive.get_entry(path).ok()` —
every archive error, of any kind, is converted to `None`. -/
def EpubDoc.get_resource_by_path (d : DocState) (path : String) :
    Option (List Nat) :=
  (EpubArchive.get_entry d.archive path).toOption

/-- `EpubDoc::get_resource`: manifest lookup by id, then
`get_resource_by_path`. -/
def EpubDoc.get_resource (d : DocState) (id : String) :
    Option (List Nat × String) :=
  match hmGet d.resources id with
  | none => none
  | some (path, mime) =>
    (EpubDoc.get_resource_by_path d path).map (fun content => (content, mime))

/-- `EpubDoc::get_resource_str_by_path`:
`self.archive.get_entry_as_str(path).ok()`. -/
def EpubDoc.get_resource_str_by_path (d : DocState) (path : String) :
    Option String :=
  (EpubArchive.get_entry_as_str d.archive path).toOption

/-- `EpubDoc::get_resource_str`: manifest lookup by id, then
`get_resource_str_by_path`. -/
def EpubDoc.get_resource_str (d : DocState) (id : String) :
    Option (String × String) :=
  match hmGet d.resources id with
  | none => none
  | some (path, mime) =>
    (EpubDoc.get_resource_str_by_path d path).map (fun content => (content, mime))

/-! ## Navigation (`src/doc.rs` lines 544-645) -/

/-- `EpubDoc::get_current_id`. -/
def EpubDoc.get_current_id (d : DocState) : Option String :=
  (d.spine.get? d.current).map (fun i => i.idref)

/-- `EpubDoc::get_current_path`. -/
def EpubDoc.get_current_path (d : DocState) : Option String :=
  (EpubDoc.get_current_id d).bind (fun id => (hmGet d.resources id).map (fun r => r.1))

/-- `EpubDoc::go_next` (`src/doc.rs` lines 567-574): new state and returned
boolean. -/
def EpubDoc.go_next (d : DocState) : DocState × Bool :=
  if d.current + 1 ≥ d.spine.length then (d, false)
  else ({ d with current := d.current + 1 }, true)

/-- `EpubDoc::go_prev` (`src/doc.rs` lines 594-601). -/
def EpubDoc.go_prev (d : DocState) : DocState × Bool :=
  if d.current < 1 then (d, false)
  else ({ d with current := d.current - 1 }, true)

/-- `EpubDoc::set_current_page` (`src/doc.rs` lines 638-645). -/
def EpubDoc.set_current_page (d : DocState) (n : Nat) : DocState × Bool :=
  if n ≥ d.spine.length then (d, false)
  else ({ d with current := n }, true)

/-- `EpubDoc::add_extra_css` (`src/doc.rs` lines 663-665). -/
def EpubDoc.add_extra_css (d : DocState) (css : String) : DocState :=
  { d with extra_css := d.extra_css ++ [css] }

/-! ## Package-document fill pipeline (`src/doc.rs` lines 688-976)

`XMLReader::parse` of the raw bytes into a tree is the external `xml-rs`
collaborator boundary; it is passed in as a function `xmlparse` so the
pipeline around it can be modelled faithfully. -/

/-- `DocError` (`src/doc.rs` lines 22-32). -/
inductive DocError : Type where
  | archiveError (e : ArchiveError)
  | xmlError
  | ioError
  | invalidEpub
deriving DecidableEq, Repr

/-- The comparison `NavPoint::cmp` / `Ord` instance (`src/doc.rs` lines
54-58) as the boolean `≤` used for sorting: comparison solely by
`play_order`. -/
def navLe (a b : NavPoint) : Bool :=
  Nat.ble a.play_order b.play_order

/-- The strict form of the `NavPoint` comparison. -/
def navLt (a b : NavPoint) : Bool :=
  Nat.blt a.play_order b.play_order

/-- Stable insertion into a sorted list: the new element goes before the
first element not strictly below it, so elements comparing equal keep
their original relative order. -/
def insertNav (a : NavPoint) : List NavPoint → List NavPoint
  | [] => [a]
  | b :: rest => if navLt b a then b :: insertNav a rest else a :: b :: rest

/-- `Vec::sort` on a `Vec<NavPoint>`: a stable sort by the `Ord` instance,
i.e. by `play_order` (realised as stable insertion sort; `Vec::sort` is
specified only as a stable comparison sort). -/
def sortNav : List NavPoint → List NavPoint
  | [] => []
  | a :: rest => insertNav a (sortNav rest)

/-- Decimal digit accumulation for `usize::from_str`. -/
def parseNatDigits : List Char → Nat → Option Nat
  | [], acc => some acc
  | c :: rest, acc =>
    if 48 ≤ c.toNat ∧ c.toNat ≤ 57 then
      parseNatDigits rest (acc * 10 + (c.toNat - 48))
    else none

/-- `str::parse::<usize>`: a non-empty all-digit numeral (the optional `+`
sign and the `usize` overflow bound are out of scope for the inputs under
verification). -/
def parseNatStr (s : String) : Option Nat :=
  match s.data with
  | [] => none
  | l => parseNatDigits l 0

/-- The `play_order` extraction of `get_navpoints`:
`item.get_attr("playOrder").and_then(|n| n.parse().ok())`. -/
def navpoint_play_order (item : XMLNode) : Option Nat :=
  (item.get_attr "playOrder").bind (fun n => parseNatStr n)

/-- The `content` extraction of `get_navpoints`: the `src` attribute of the
`content` descendant, joined onto `root_base`. -/
def navpoint_content (root_base : String) (item : XMLNode) : Option String :=
  (item.find "content").bind
    (fun c => (c.get_attr "src").map (fun p => pathJoin root_base p))

/-- The `label` extraction of `get_navpoints`: the text of the first child
of the `navLabel` descendant. -/
def navpoint_label (item : XMLNode) : Option String :=
  (item.find "navLabel").bind
    (fun l => (l.children.get? 0).bind (fun t => t.text))

mutual

/-- `EpubDoc::get_navpoints` (`src/doc.rs` lines 941-976): collect a
`NavPoint` from every `navPoint` child having a numeric `playOrder`, a
`content/@src` and a `navLabel` first-child text (recursing into the kept
node for its children), then sort the level by `play_order`. -/
def EpubDoc.get_navpoints (root_base : String) : XMLNode → List NavPoint
  | .mk _ _ _ _ children =>
    sortNav (EpubDoc.navpointsOf root_base children)

/-- The loop body of `get_navpoints` over the parent's children, before the
level sort. -/
def EpubDoc.navpointsOf (root_base : String) : List XMLNode → List NavPoint
  | [] => []
  | item :: rest =>
    (if item.name.local_name = "navPoint" then
      match navpoint_play_order item, navpoint_content root_base item,
          navpoint_label item with
      | some o, some c, some l =>
        [NavPoint.mk l c (EpubDoc.get_navpoints root_base item) o]
      | _, _, _ => []
    else []) ++ EpubDoc.navpointsOf root_base rest

end

/-- `EpubDoc::fill_toc` (`src/doc.rs` lines 912-938) as a state
transformer.  The source returns `Result` but its only caller discards the
error (`let _ = self.fill_toc(&toc)`), so the model returns the state
reached when the error occurs: in particular `toc_title` is already set
when a missing `navMap` aborts the function. -/
def EpubDoc.fill_toc (xmlparse : List Nat → Option XMLNode) (d : DocState)
    (id : String) : DocState :=
  match hmGet d.resources id with
  | none => d
  | some (path, _mime) =>
    match EpubArchive.get_entry d.archive path with
    | .error _ => d
    | .ok container =>
      match xmlparse container with
      | none => d
      | some root =>
        let title := ((root.find "docTitle").bind
          (fun dt => (dt.children.get? 0).bind (fun t => t.text))).getD ""
        let d := { d with toc_title := title }
        match root.find "navMap" with
        | none => d
        | some mapnode =>
          { d with toc :=
              sortNav (d.toc ++ EpubDoc.get_navpoints d.root_base mapnode) }

/-- `EpubDoc::convert_path_seps` (`src/doc.rs` lines 872-878) on a
non-Windows host: join the href onto `root_base`. -/
def EpubDoc.convert_path_seps (d : DocState) (href : String) : String :=
  pathJoin d.root_base href

/-- `EpubDoc::insert_resource` (`src/doc.rs` lines 880-894): require `id`,
`href` and `media-type`; the caller discards the error, so a missing
attribute leaves the state unchanged. -/
def EpubDoc.insert_resource (d : DocState) (item : XMLNode) : DocState :=
  match item.get_attr "id", item.get_attr "href",
      item.get_attr "media-type" with
  | some id, some href, some mtype =>
    { d with resources :=
        hmInsert d.resources id (EpubDoc.convert_path_seps d href, mtype) }
  | _, _, _ => d

/-- The manifest loop body of `fill_resources` (`src/doc.rs` lines
706-718): if no cover id is set yet and the item has `id` and
`properties="cover-image"`, record the cover id; then `insert_resource`. -/
def EpubDoc.manifest_step (d : DocState) (item : XMLNode) : DocState :=
  let d :=
    if d.cover_id = none then
      match item.get_attr "id", item.get_attr "properties" with
      | some id, some property =>
        if property = "cover-image" then { d with cover_id := some id } else d
      | _, _ => d
    else d
  EpubDoc.insert_resource d item

/-- `EpubDoc::insert_spine` (`src/doc.rs` lines 896-910), as the spine item
produced from one `<spine>` child: `none` when `idref` is missing (the
caller discards the error).  `linear` is the comparison
`item.get_attr("linear").unwrap_or("yes") == "yes"`. -/
def EpubDoc.insert_spine (item : XMLNode) : Option SpineItem :=
  match item.get_attr "idref" with
  | none => none
  | some idref =>
    some { idref,
           id := item.get_attr "id",
           properties := item.get_attr "properties",
           linear := ((item.get_attr "linear").getD "yes") == "yes" }

/-- The spine loop body of `fill_resources` (`src/doc.rs` lines 721-725). -/
def EpubDoc.spine_step (d : DocState) (item : XMLNode) : DocState :=
  match EpubDoc.insert_spine item with
  | some s => { d with spine := d.spine ++ [s] }
  | none => d

/-- The Dublin Core element namespace. -/
def dcNs : String := "http://purl.org/dc/elements/1.1/"

/-- The OPF namespace. -/
def opfNs : String := "http://www.idpf.org/2007/opf"

/-- The accumulator of `fill_metadata`: the metadata list and cover id under
construction plus the pending refinements keyed by target id. -/
structure MetaAcc : Type where
  metadata : List MetadataItem
  cover_id : Option String
  refinements : List (String × List MetadataRefinement)

/-- The per-child dispatch of `EpubDoc::fill_metadata` (`src/doc.rs` lines
756-856), by element namespace: Dublin Core elements become items (with
EPUB2 attribute refinements when the version is not 3.0); OPF `<meta>` with
a `property` attribute is an EPUB3 item or, with `refines="#id"`, a pending
refinement; OPF `<meta>` with `name`/`content` is a legacy item (setting the
cover id when the name is `cover`); everything else is ignored.
`String.toLower` models `eq_ignore_ascii_case` / Rust lowercasing, which
agree on the ASCII tag names involved. -/
def metaStep (version : EpubVersion) (acc : MetaAcc) (item : XMLNode) :
    MetaAcc :=
  if item.name.ns = some dcNs then
    let id := item.get_attr "id"
    let lang := item.get_attr "lang"
    let property := item.name.local_name
    let value := item.text.getD ""
    let refined : List MetadataRefinement :=
      if version = EpubVersion.version3_0 then []
      else
        item.attrs.filterMap (fun attr =>
          if attr.name.ns = some opfNs then
            some ⟨attr.name.local_name, attr.value, none, none⟩
          else none)
    { acc with metadata := acc.metadata ++ [⟨id, property, value, lang, refined⟩] }
  else if item.name.ns = some opfNs ∧ strToLower item.name.local_name = "meta" then
    match item.get_attr "property" with
    | some property =>
      let value := item.text.getD ""
      let lang := item.get_attr "lang"
      match item.get_attr "refines" with
      | some hash =>
        if startsWithStr hash "#" then
          let tid := hash.drop 1
          let scheme := item.get_attr "scheme"
          let refinement : MetadataRefinement := ⟨property, value, lang, scheme⟩
          { acc with refinements :=
              match hmGet acc.refinements tid with
              | some refs => hmInsert acc.refinements tid (refs ++ [refinement])
              | none => acc.refinements ++ [(tid, [refinement])] }
        else acc
      | none =>
        let id := item.get_attr "id"
        { acc with metadata := acc.metadata ++ [⟨id, property, value, lang, []⟩] }
    | none =>
      match item.get_attr "name", item.get_attr "content" with
      | some property, some value =>
        let acc :=
          if property = "cover" then { acc with cover_id := some value } else acc
        { acc with metadata := acc.metadata ++ [⟨none, property, value, none, []⟩] }
      | _, _ => acc
  else acc

/-- The refinement association pass at the end of `fill_metadata`
(`src/doc.rs` lines 859-865): walk the items in order; an item with an id
removes its pending refinement list (if any) from the map and appends it to
its own refinements. -/
def associateRefinements :
    List MetadataItem → List (String × List MetadataRefinement) →
    List MetadataItem
  | [], _ => []
  | item :: rest, refs =>
    match item.id with
    | none => item :: associateRefinements rest refs
    | some id =>
      match hmRemove refs id with
      | (some rs, refs') =>
        { item with refined := item.refined ++ rs } ::
          associateRefinements rest refs'
      | (none, refs') => item :: associateRefinements rest refs'

/-- `EpubDoc::fill_metadata` (`src/doc.rs` lines 753-866). -/
def EpubDoc.fill_metadata (d : DocState) (elem : XMLNode) : DocState :=
  let acc := elem.children.foldl (metaStep d.version)
    ⟨d.metadata, d.cover_id, []⟩
  { d with metadata := associateRefinements acc.metadata acc.refinements,
           cover_id := acc.cover_id }

/-- The unique-identifier resolution tail of `fill_resources` (`src/doc.rs`
lines 739-748): when a `unique-identifier` attribute was declared, the first
metadata item with property `identifier` and a matching id (no fallback
when none matches); otherwise the first item with property `identifier`. -/
def unique_identifier_resolution (uid : Option String)
    (metadata : List MetadataItem) : Option String :=
  let identifier : Option MetadataItem :=
    match uid with
    | some u =>
      metadata.find? (fun d => d.property == "identifier" && d.id == some u)
    | none => metadata.find? (fun d => d.property == "identifier")
  identifier.map (fun data => data.value)

/-- `EpubDoc::fill_resources` (`src/doc.rs` lines 688-751): read and parse
the package document; read its version and `unique-identifier`; manifest
pass (fatal `InvalidEpub` when `<manifest>` is missing); spine pass (fatal
when `<spine>` is missing); non-fatal toc pass; metadata pass (fatal
`InvalidEpub` when `<metadata>` is missing); unique-identifier
resolution. -/
def EpubDoc.fill_resources (xmlparse : List Nat → Option XMLNode)
    (d : DocState) : Except DocError DocState :=
  match EpubArchive.get_entry d.archive d.root_file with
  | .error e => .error (.archiveError e)
  | .ok container =>
    match xmlparse container with
    | none => .error .xmlError
    | some root =>
      let version :=
        match root.get_attr "version" with
        | some v =>
          if v = "2.0" then EpubVersion.version2_0
          else if v = "3.0" then EpubVersion.version3_0
          else EpubVersion.unknown v
        | none => EpubVersion.unknown "Unknown"
      let d := { d with version }
      let uid := root.get_attr "unique-identifier"
      match root.find "manifest" with
      | none => .error .invalidEpub
      | some manifest =>
        let d := manifest.children.foldl EpubDoc.manifest_step d
        match root.find "spine" with
        | none => .error .invalidEpub
        | some spine =>
          let d := spine.children.foldl EpubDoc.spine_step d
          let d :=
            match spine.get_attr "toc" with
            | some toc => EpubDoc.fill_toc xmlparse d toc
            | none => d
          match root.find "metadata" with
          | none => .error .invalidEpub
          | some metadata_elem =>
            let d := EpubDoc.fill_metadata d metadata_elem
            .ok { d with unique_identifier :=
                    unique_identifier_resolution uid d.metadata }

/-! ## Attribute rewriter (`src/xmlutils.rs` lines 229-307)

`replace_attrs` re-streams the document through the `xml-rs` reader/writer
pair.  The reader's tokenization of the byte buffer is the collaborator
boundary, so the input is the list of reader events; the writer's
serialization (indentation, escaping) is likewise external, so the output is
the list of writer events in emission order.  An unnamed `endElement`
output event closes the most recently opened element, exactly as
`WriterEvent::end_element()` does. -/

/-- An `xml-rs` reader event as consumed by `replace_attrs`: start tag (local
name and attributes as local-name/value pairs), end tag, characters, CDATA, a
passthrough event of any other kind, or a read error. -/
inductive InEvent : Type where
  | startElement (name : String) (attrs : List (String × String))
  | endElement (name : String)
  | characters (s : String)
  | cdata (s : String)
  | passthrough (k : Nat)
  | readError
deriving DecidableEq, Repr

/-- An `xml-rs` writer event as emitted by `replace_attrs`. -/
inductive OutEvent : Type where
  | startElement (name : String) (attrs : List (String × String))
  | endElement
  | characters (s : String)
  | cdata (s : String)
  | passthrough (k : Nat)
deriving DecidableEq, Repr

/-- `replace_attrs` (`src/xmlutils.rs` lines 229-307): every start tag has
each attribute value replaced by `closure(tag, attr, value)`; every end tag
whose lowercased name is `head`, when `extra_css` is non-empty, is preceded
by a `<style>` element holding `/*`, a CDATA block of
`*/ + extra_css.concat() + /*`, and `*/`; other events pass through; a
reader error aborts the whole call. -/
def replace_attrs (xmldoc : List InEvent)
    (closure : String → String → String → String)
    (extra_css : List String) : Except Unit (List OutEvent) :=
  match xmldoc with
  | [] => .ok []
  | e :: rest =>
    match e with
    | .readError => .error ()
    | .startElement name attrs =>
      let attrs := attrs.map (fun a => (a.1, closure name a.1 a.2))
      (replace_attrs rest closure extra_css).map
        (fun out => OutEvent.startElement name attrs :: out)
    | .endElement n =>
      let injected : List OutEvent :=
        if strToLower n = "head" ∧ extra_css ≠ [] then
          let allcss := "*/" ++ String.join extra_css ++ "/*"
          [OutEvent.startElement "style" [], OutEvent.characters "/*",
            OutEvent.cdata allcss, OutEvent.characters "*/",
            OutEvent.endElement]
        else []
      (replace_attrs rest closure extra_css).map
        (fun out => injected ++ OutEvent.endElement :: out)
    | .characters s =>
      (replace_attrs rest closure extra_css).map
        (fun out => OutEvent.characters s :: out)
    | .cdata s =>
      (replace_attrs rest closure extra_css).map
        (fun out => OutEvent.cdata s :: out)
    | .passthrough k =>
      (replace_attrs rest closure extra_css).map
        (fun out => OutEvent.passthrough k :: out)

/-! ## URI relinking (`src/doc.rs` lines 476-492 and 994-1025) -/

/-- `build_epub_uri` (`src/doc.rs` lines 994-1025): `http`-prefixed values
pass through; otherwise start from the current file's directory
(`cpath.pop()`), walk the appended path's components (`..` pops, a normal
segment pushes, other component kinds are ignored), and prefix the
forward-slash path with `epub://`. -/
def build_epub_uri (path : String) (append : String) : String :=
  if startsWithStr append "http" then append
  else
    let cpath := (pathComponents path).dropLast
    let final := (pathComponents append).foldl
      (fun acc seg => if seg = ".." then acc.dropLast else acc ++ [seg]) cpath
    "epub://" ++ String.intercalate "/" final

/-- The substitution closure of `EpubDoc::get_current_with_epub_uris`
(`src/doc.rs` lines 482-487): rewrite exactly `link/href`, `image/href`,
`a/href` and `img/src` through `build_epub_uri`; leave every other
element/attribute pair untouched. -/
def epub_uri_closure (path : String) (element attr value : String) : String :=
  match element, attr with
  | "link", "href" => build_epub_uri path value
  | "image", "href" => build_epub_uri path value
  | "a", "href" => build_epub_uri path value
  | "img", "src" => build_epub_uri path value
  | _, _ => value

/-- `EpubDoc::get_current` (`src/doc.rs` lines 438-441): the current
chapter's content and mime type. -/
def EpubDoc.get_current (d : DocState) : Option (List Nat × String) :=
  (EpubDoc.get_current_id d).bind (fun id => EpubDoc.get_resource d id)

/-- `EpubDoc::get_current_with_epub_uris` (`src/doc.rs` lines 476-492) with
the tokenization of the current chapter's bytes abstracted as the event
list `events`: resolve the current path (else `InvalidEpub`), fetch the
current content (else `InvalidEpub`), and rewrite it through
`replace_attrs` with the `epub://` closure and the accumulated extra CSS. -/
def EpubDoc.get_current_with_epub_uris (d : DocState)
    (events : List Nat → List InEvent) : Except DocError (List OutEvent) :=
  match EpubDoc.get_current_path d with
  | none => .error .invalidEpub
  | some path =>
    match EpubDoc.get_current d with
    | none => .error .invalidEpub
    | some (current, _mime) =>
      match replace_attrs (events current) (epub_uri_closure path)
          d.extra_css with
      | .ok out => .ok out
      | .error _ => .error .xmlError


/-! ## C2: resource lookup error handling -/

/-- A concrete archive for C2: `OEBPS/ch1.xhtml` exists but reading it fails
with an I/O error; `OEBPS/bad.txt` exists with non-UTF-8 content. -/
def c2Zip : ZipArchive :=
  ⟨fun name =>
    if name = "OEBPS/ch1.xhtml" then ZipEntryOutcome.readErr
    else if name = "OEBPS/bad.txt" then ZipEntryOutcome.found [0xff]
    else ZipEntryOutcome.notFound⟩

/-- A concrete opened document over `c2Zip` whose manifest resolves `ch1`
and `bad`. -/
def c2Doc : DocState where
  archive := c2Zip
  current := 0
  version := EpubVersion.version2_0
  spine := [⟨"ch1", none, none, true⟩]
  resources := [("ch1", ("OEBPS/ch1.xhtml", "application/xhtml+xml")),
    ("bad", ("OEBPS/bad.txt", "text/plain"))]
  toc := []
  toc_title := ""
  metadata := []
  root_base := "OEBPS"
  root_file := "OEBPS/content.opf"
  extra_css := []
  unique_identifier := none
  cover_id := none

/-- C2 counterexample: the claim says an I/O failure on an existing,
resolved path is propagated as an error rather than absorbed, and that for
the string variants a non-UTF-8 resource yields a failure distinguishable
from "not found".  In the code both lookups end in `.ok()`, so the I/O
error on the existing entry `OEBPS/ch1.xhtml` and the UTF-8 error on
`OEBPS/bad.txt` each collapse to `none` — the very value returned for the
genuinely missing path — and the id variants do the same. -/
theorem c2_counterexample :
    EpubArchive.get_entry c2Doc.archive "OEBPS/ch1.xhtml" =
      Except.error ArchiveError.io ∧
    EpubDoc.get_resource_by_path c2Doc "OEBPS/ch1.xhtml" = none ∧
    EpubDoc.get_resource c2Doc "ch1" = none ∧
    EpubDoc.get_resource_by_path c2Doc "OEBPS/missing.xhtml" = none ∧
    EpubArchive.get_entry_as_str c2Doc.archive "OEBPS/bad.txt" =
      Except.error ArchiveError.utf8 ∧
    EpubDoc.get_resource_str_by_path c2Doc "OEBPS/bad.txt" = none ∧
    EpubDoc.get_resource_str_by_path c2Doc "OEBPS/missing.xhtml" = none := by
  refine ⟨rfl, rfl, rfl, rfl, rfl, rfl, rfl⟩

/-- C2 amended: the lookup operations return an absent result exactly when
the id is missing from the manifest or the archive access fails for any
reason whatsoever; every archive error — not-found, I/O failure on an
existing path, zip error, and (for the string variants) invalid UTF-8 — is
absorbed into the same `none`, never propagated or distinguished. -/
theorem c2_lookup_absorbs_all_errors (d : DocState) (id path : String) :
    (EpubDoc.get_resource_by_path d path = none ↔
      ∃ e, EpubArchive.get_entry d.archive path = Except.error e) ∧
    (EpubDoc.get_resource_str_by_path d path = none ↔
      ∃ e, EpubArchive.get_entry_as_str d.archive path = Except.error e) ∧
    (EpubDoc.get_resource d id = none ↔
      hmGet d.resources id = none ∨
      ∃ p m e, hmGet d.resources id = some (p, m) ∧
        EpubArchive.get_entry d.archive p = Except.error e) := by
  refine ⟨?_, ?_, ?_⟩
  · unfold EpubDoc.get_resource_by_path
    cases h : EpubArchive.get_entry d.archive path <;>
      simp [Except.toOption]
  · unfold EpubDoc.get_resource_str_by_path
    cases h : EpubArchive.get_entry_as_str d.archive path <;>
      simp [Except.toOption]
  · unfold EpubDoc.get_resource EpubDoc.get_resource_by_path
    cases hm : hmGet d.resources id with
    | none => simp
    | some pm =>
      obtain ⟨p, m⟩ := pm
      cases h : EpubArchive.get_entry d.archive p <;>
        simp [Except.toOption, h]

/-- C2 witness: the amended statement instantiated at the concrete document
`c2Doc`, the manifest id `ch1` and the failing path. -/
theorem c2_lookup_absorbs_all_errors_witness :
    (EpubDoc.get_resource_by_path c2Doc "OEBPS/ch1.xhtml" = none ↔
      ∃ e, EpubArchive.get_entry c2Doc.archive "OEBPS/ch1.xhtml" =
        Except.error e) ∧
    (EpubDoc.get_resource_str_by_path c2Doc "OEBPS/ch1.xhtml" = none ↔
      ∃ e, EpubArchive.get_entry_as_str c2Doc.archive "OEBPS/ch1.xhtml" =
        Except.error e) ∧
    (EpubDoc.get_resource c2Doc "ch1" = none ↔
      hmGet c2Doc.resources "ch1" = none ∨
      ∃ p m e, hmGet c2Doc.resources "ch1" = some (p, m) ∧
        EpubArchive.get_entry c2Doc.archive p = Except.error e) :=
  c2_lookup_absorbs_all_errors c2Doc "ch1" "OEBPS/ch1.xhtml"

/-! ## C3: unique identifier resolution -/

/-- A metadata list holding a single `identifier` item whose id does not
match the declared `unique-identifier`. -/
def c3Metadata : List MetadataItem :=
  [⟨some "other-id", "identifier", "urn:uuid:1234", none, []⟩]

/-- C3 counterexample: the claim says that when `unique-identifier` was
declared but matches no item, the unique identifier falls back to the first
`identifier` metadata item.  With the declaration `bookid` and a single
`identifier` item of id `other-id` and value `urn:uuid:1234`, the code
leaves the unique identifier unset instead of the claimed fallback
`urn:uuid:1234`. -/
theorem c3_counterexample :
    unique_identifier_resolution (some "bookid") c3Metadata = none ∧
    (c3Metadata.find? (fun d => d.property == "identifier")).map
      (fun d => d.value) = some "urn:uuid:1234" := by
  refine ⟨rfl, rfl⟩

/-- The selection predicate the code effectively uses per branch: with a
declared unique-identifier it requires both property `identifier` and a
matching id; with none it requires only the property. -/
def uidMatches (uid : Option String) (d : MetadataItem) : Bool :=
  match uid with
  | some u => d.property == "identifier" && d.id == some u
  | none => d.property == "identifier"

/-- C3 amended: the unique identifier is the value of the first metadata
item satisfying `uidMatches`: when `unique-identifier` is declared, the
first `identifier` item with the matching id — with NO fallback when none
matches (the result is then unset even if `identifier` items exist);
only when no declaration is present is it the first `identifier` item. -/
theorem c3_unique_identifier_resolution (uid : Option String)
    (md : List MetadataItem) :
    unique_identifier_resolution uid md =
      (md.find? (uidMatches uid)).map (fun d => d.value) ∧
    (unique_identifier_resolution uid md = none ↔
      ∀ d ∈ md, uidMatches uid d = false) := by
  have heq : unique_identifier_resolution uid md =
      (md.find? (uidMatches uid)).map (fun d => d.value) := by
    cases uid <;> rfl
  refine ⟨heq, ?_⟩
  rw [heq]
  constructor
  · intro h d hd
    rcases hfind : md.find? (uidMatches uid) with _ | v
    · exact Bool.eq_false_iff.mpr
        (fun htrue => by
          have := List.find?_isSome.mpr ⟨d, hd, htrue⟩
          rw [hfind] at this
          exact Bool.noConfusion this)
    · rw [hfind] at h
      exact absurd h (by simp)
  · intro h
    rcases hfind : md.find? (uidMatches uid) with _ | v
    · rfl
    · have hv := List.find?_some hfind
      have hmem := List.mem_of_find?_eq_some hfind
      rw [h v hmem] at hv
      exact Bool.noConfusion hv

/-- C3 witness: the amended statement instantiated at the counterexample's
declared id and metadata. -/
theorem c3_unique_identifier_resolution_witness :
    unique_identifier_resolution (some "bookid") c3Metadata =
      (c3Metadata.find? (uidMatches (some "bookid"))).map (fun d => d.value) ∧
    (unique_identifier_resolution (some "bookid") c3Metadata = none ↔
      ∀ d ∈ c3Metadata, uidMatches (some "bookid") d = false) :=
  c3_unique_identifier_resolution (some "bookid") c3Metadata

/-! ## C4: spine linear flag -/

/-- A spine `<itemref>` child with `idref="chapter1"` and `linear="true"`. -/
def c4Item : XMLNode :=
  XMLNode.mk ⟨"itemref", none⟩
    [⟨⟨"idref", none⟩, "chapter1"⟩, ⟨⟨"linear", none⟩, "true"⟩]
    none none []

/-- C4 counterexample: the claim says `linear` is false only when the
attribute literal equals a falsy token, and that any non-falsy value leaves
it true.  The code compares the literal against the single token `yes`, so
the decidedly non-falsy literal `true` nevertheless produces
`linear = false`. -/
theorem c4_counterexample :
    XMLNode.get_attr c4Item "linear" = some "true" ∧
    EpubDoc.insert_spine c4Item =
      some ⟨"chapter1", none, none, false⟩ := by
  refine ⟨rfl, rfl⟩

/-- C4 amended: for a spine child with an `idref`, the resulting item's
`linear` flag is true exactly when the `linear` attribute is absent or its
literal equals `"yes"`; every other literal — falsy or not — yields
false. -/
theorem c4_linear_iff_absent_or_yes (item : XMLNode) (s : SpineItem)
    (h : EpubDoc.insert_spine item = some s) :
    s.linear = true ↔
      item.get_attr "linear" = none ∨ item.get_attr "linear" = some "yes" := by
  unfold EpubDoc.insert_spine at h
  cases hid : item.get_attr "idref" with
  | none => rw [hid] at h; exact absurd h (by simp)
  | some idref =>
    rw [hid] at h
    simp only [Option.some.injEq] at h
    subst h
    cases hl : item.get_attr "linear" with
    | none => simp [hl]
    | some v => simp [hl, beq_iff_eq]

/-- C4 witness: a spine child with no `linear` attribute, where the amended
statement yields `linear = true`. -/
theorem c4_linear_iff_absent_or_yes_witness :
    (SpineItem.linear ⟨"chapter1", none, none, true⟩ = true ↔
      XMLNode.get_attr
        (XMLNode.mk ⟨"itemref", none⟩ [⟨⟨"idref", none⟩, "chapter1"⟩] none none [])
        "linear" = none ∨
      XMLNode.get_attr
        (XMLNode.mk ⟨"itemref", none⟩ [⟨⟨"idref", none⟩, "chapter1"⟩] none none [])
        "linear" = some "yes") :=
  c4_linear_iff_absent_or_yes
    (XMLNode.mk ⟨"itemref", none⟩ [⟨⟨"idref", none⟩, "chapter1"⟩] none none [])
    ⟨"chapter1", none, none, true⟩ rfl

/-! ## C7: cursor navigation -/

/-- `k` consecutive `go_next` calls starting from `d` (keeping the state,
discarding the booleans). -/
def EpubDoc.nextIter (d : DocState) : Nat → DocState
  | 0 => d
  | k + 1 => (EpubDoc.go_next (EpubDoc.nextIter d k)).1

/-- Starting at spine index 0, `k` `go_next` calls land on index `k`, for
every valid index `k`. -/
theorem nextIter_spec (d : DocState) (h : d.current = 0) :
    ∀ k, k < d.spine.length →
      EpubDoc.nextIter d k = { d with current := k } := by
  intro k
  induction k with
  | zero =>
    intro _
    show d = { d with current := 0 }
    rw [← h]
  | succ k ih =>
    intro hk
    have hk' : k < d.spine.length := Nat.lt_of_succ_lt hk
    show (EpubDoc.go_next (EpubDoc.nextIter d k)).1 = { d with current := k + 1 }
    rw [ih hk']
    unfold EpubDoc.go_next
    split
    · next hcond =>
      exfalso
      simp only at hcond
      omega
    · rfl

/-- C7: `go_next` succeeds and increments exactly when `current + 1` is a
valid spine index, `go_prev` exactly when `current > 0`,
`set_current_page n` exactly when `n < spine length`; every failing call
returns `false` with the whole state unchanged; and from index 0 the
successful `go_next` calls visit indices `0, 1, …, len-1` in order, after
which the next call fails without moving. -/
theorem c7_navigation (d : DocState) (n : Nat) :
    (d.current + 1 < d.spine.length →
      EpubDoc.go_next d = ({ d with current := d.current + 1 }, true)) ∧
    (¬ d.current + 1 < d.spine.length → EpubDoc.go_next d = (d, false)) ∧
    (0 < d.current →
      EpubDoc.go_prev d = ({ d with current := d.current - 1 }, true)) ∧
    (d.current = 0 → EpubDoc.go_prev d = (d, false)) ∧
    (n < d.spine.length →
      EpubDoc.set_current_page d n = ({ d with current := n }, true)) ∧
    (¬ n < d.spine.length → EpubDoc.set_current_page d n = (d, false)) ∧
    (d.current = 0 →
      (∀ k, k < d.spine.length → (EpubDoc.nextIter d k).current = k) ∧
      (∀ k, k + 1 < d.spine.length →
        EpubDoc.go_next (EpubDoc.nextIter d k) =
          (EpubDoc.nextIter d (k + 1), true)) ∧
      (0 < d.spine.length →
        EpubDoc.go_next (EpubDoc.nextIter d (d.spine.length - 1)) =
          (EpubDoc.nextIter d (d.spine.length - 1), false))) := by
  refine ⟨?_, ?_, ?_, ?_, ?_, ?_, ?_⟩
  · intro hlt
    unfold EpubDoc.go_next
    rw [if_neg (Nat.not_le.mpr hlt)]
  · intro hge
    unfold EpubDoc.go_next
    rw [if_pos (Nat.le_of_not_lt hge)]
  · intro hpos
    unfold EpubDoc.go_prev
    rw [if_neg (by omega)]
  · intro hz
    unfold EpubDoc.go_prev
    rw [if_pos (by omega)]
  · intro hlt
    unfold EpubDoc.set_current_page
    rw [if_neg (Nat.not_le.mpr hlt)]
  · intro hge
    unfold EpubDoc.set_current_page
    rw [if_pos (Nat.le_of_not_lt hge)]
  · intro h0
    refine ⟨?_, ?_, ?_⟩
    · intro k hk
      rw [nextIter_spec d h0 k hk]
    · intro k hk
      have hk' : k < d.spine.length := Nat.lt_of_succ_lt hk
      rw [nextIter_spec d h0 k hk', nextIter_spec d h0 (k + 1) hk]
      unfold EpubDoc.go_next
      split
      · next hcond =>
        exfalso
        simp only at hcond
        omega
      · rfl
    · intro hlen
      have hk : d.spine.length - 1 < d.spine.length := by omega
      rw [nextIter_spec d h0 (d.spine.length - 1) hk]
      unfold EpubDoc.go_next
      split
      · rfl
      · next hcond =>
        exfalso
        simp only at hcond
        omega

/-- A two-chapter document at spine index 0 for the C7 witness. -/
def c7Doc : DocState where
  archive := ⟨fun _ => ZipEntryOutcome.notFound⟩
  current := 0
  version := EpubVersion.version2_0
  spine := [⟨"titlepage.xhtml", none, none, true⟩, ⟨"000.xhtml", none, none, true⟩]
  resources := []
  toc := []
  toc_title := ""
  metadata := []
  root_base := "OEBPS"
  root_file := "OEBPS/content.opf"
  extra_css := []
  unique_identifier := none
  cover_id := none

/-- C7 witness: the navigation contract evaluated on the concrete
two-chapter document. -/
theorem c7_navigation_witness :
    EpubDoc.go_next c7Doc = ({ c7Doc with current := 1 }, true) ∧
    EpubDoc.go_prev c7Doc = (c7Doc, false) ∧
    EpubDoc.set_current_page c7Doc 1 = ({ c7Doc with current := 1 }, true) ∧
    EpubDoc.set_current_page c7Doc 5 = (c7Doc, false) ∧
    (EpubDoc.nextIter c7Doc 1).current = 1 ∧
    EpubDoc.go_next (EpubDoc.nextIter c7Doc 1) =
      (EpubDoc.nextIter c7Doc 1, false) := by
  refine ⟨(c7_navigation c7Doc 1).1 (by decide),
    (c7_navigation c7Doc 1).2.2.2.1 rfl,
    (c7_navigation c7Doc 1).2.2.2.2.1 (by decide),
    (c7_navigation c7Doc 5).2.2.2.2.2.1 (by decide),
    ((c7_navigation c7Doc 1).2.2.2.2.2.2 rfl).1 1 (by decide),
    ((c7_navigation c7Doc 1).2.2.2.2.2.2 rfl).2.2 (by decide)⟩

/-! ## C10: missing `<metadata>` is fatal -/

/-- C10: whenever the package document parses and contains `<manifest>` and
`<spine>` but no `<metadata>` element, `fill_resources` — and with it the
whole open — fails with `DocError::InvalidEpub`: the metadata element is a
fatal structural prerequisite exactly like manifest and spine, not an
optional structure. -/
theorem c10_missing_metadata_fatal (xmlparse : List Nat → Option XMLNode)
    (d : DocState) (bytes : List Nat) (root manifest spine : XMLNode)
    (hread : EpubArchive.get_entry d.archive d.root_file = Except.ok bytes)
    (hparse : xmlparse bytes = some root)
    (hman : root.find "manifest" = some manifest)
    (hspine : root.find "spine" = some spine)
    (hmeta : root.find "metadata" = none) :
    EpubDoc.fill_resources xmlparse d = Except.error DocError.invalidEpub := by
  unfold EpubDoc.fill_resources
  rw [hread]
  simp only [hparse, hman, hspine, hmeta]

/-- An empty `<manifest>` element. -/
def c10Manifest : XMLNode := XMLNode.mk ⟨"manifest", none⟩ [] none none []

/-- An empty `<spine>` element with no `toc` attribute. -/
def c10Spine : XMLNode := XMLNode.mk ⟨"spine", none⟩ [] none none []

/-- A package root with manifest and spine but no metadata element. -/
def c10Root : XMLNode :=
  XMLNode.mk ⟨"package", none⟩ [⟨⟨"version", none⟩, "2.0"⟩] none none
    [c10Manifest, c10Spine]

/-- An archive holding only the package document bytes. -/
def c10Zip : ZipArchive :=
  ⟨fun name =>
    if name = "OEBPS/content.opf" then ZipEntryOutcome.found [60]
    else ZipEntryOutcome.notFound⟩

/-- The document state entering `fill_resources` for the C10 witness. -/
def c10Doc : DocState where
  archive := c10Zip
  current := 0
  version := EpubVersion.version2_0
  spine := []
  resources := []
  toc := []
  toc_title := ""
  metadata := []
  root_base := "OEBPS"
  root_file := "OEBPS/content.opf"
  extra_css := []
  unique_identifier := none
  cover_id := none

/-- The collaborator parse function for the C10 witness. -/
def c10Parse : List Nat → Option XMLNode :=
  fun b => if b = [60] then some c10Root else none

/-- C10 witness: the concrete metadata-less package document makes
`fill_resources` fail with `InvalidEpub`. -/
theorem c10_missing_metadata_fatal_witness :
    EpubDoc.fill_resources c10Parse c10Doc = Except.error DocError.invalidEpub :=
  c10_missing_metadata_fatal c10Parse c10Doc [60] c10Root c10Manifest c10Spine
    rfl rfl rfl rfl rfl

/-! ## C9: `epub://` URI rewriting -/

/-- The element/attribute pairs the substitution closure of
`get_current_with_epub_uris` rewrites. -/
def rewritten_attr_pairs : List (String × String) :=
  [("link", "href"), ("image", "href"), ("a", "href"), ("img", "src")]

/-- The spec-side relative resolution: starting from the current directory,
each `..` segment pops a directory and each normal segment descends. -/
def resolve_relative : List String → List String → List String
  | dir, [] => dir
  | dir, seg :: rest =>
    if seg = ".." then resolve_relative dir.dropLast rest
    else resolve_relative (dir ++ [seg]) rest

/-- The component fold inside `build_epub_uri` computes exactly the
spec-side recursive resolution. -/
theorem foldl_resolve_relative (segs : List String) : ∀ dir : List String,
    segs.foldl (fun acc seg => if seg = ".." then acc.dropLast else acc ++ [seg])
      dir = resolve_relative dir segs := by
  induction segs with
  | nil => intro dir; rfl
  | cons s rest ih =>
    intro dir
    rw [List.foldl_cons, resolve_relative]
    by_cases h : s = ".."
    · rw [if_pos h, if_pos h, ih]
    · rw [if_neg h, if_neg h, ih]

/-- C9: the closure of `get_current_with_epub_uris` rewrites exactly the
pairs `link/href`, `image/href`, `a/href`, `img/src` through
`build_epub_uri` and passes every other attribute value through unchanged;
`build_epub_uri` returns `http`-prefixed values untouched and otherwise
resolves the value against the current resource's directory (`..` pops,
normal segments descend) under the literal `epub://` prefix with
forward-slash separators. -/
theorem c9_uri_rewriting (path element attr value : String) :
    ((element, attr) ∈ rewritten_attr_pairs →
      epub_uri_closure path element attr value = build_epub_uri path value) ∧
    ((element, attr) ∉ rewritten_attr_pairs →
      epub_uri_closure path element attr value = value) ∧
    (startsWithStr value "http" = true → build_epub_uri path value = value) ∧
    (startsWithStr value "http" = false →
      build_epub_uri path value =
        "epub://" ++ String.intercalate "/"
          (resolve_relative ((pathComponents path).dropLast)
            (pathComponents value))) := by
  refine ⟨?_, ?_, ?_, ?_⟩
  · intro hmem
    simp only [rewritten_attr_pairs, List.mem_cons, List.not_mem_nil,
      or_false, Prod.mk.injEq] at hmem
    rcases hmem with ⟨he, ha⟩ | ⟨he, ha⟩ | ⟨he, ha⟩ | ⟨he, ha⟩ <;>
      subst he <;> subst ha <;> rfl
  · intro hnmem
    unfold epub_uri_closure
    split
    · exact absurd (by simp [rewritten_attr_pairs]) hnmem
    · exact absurd (by simp [rewritten_attr_pairs]) hnmem
    · exact absurd (by simp [rewritten_attr_pairs]) hnmem
    · exact absurd (by simp [rewritten_attr_pairs]) hnmem
    · rfl
  · intro hhttp
    unfold build_epub_uri
    rw [if_pos hhttp]
  · intro hhttp
    unfold build_epub_uri
    rw [if_neg (by simp [hhttp])]
    simp only [foldl_resolve_relative]

/-- C9 witness: the closure and URI construction evaluated on the paths of
the library's own doctest (`OEBPS/Text/chapter1.xhtml` with
`../Images/portada.png` and an external `http` link). -/
theorem c9_uri_rewriting_witness :
    epub_uri_closure "OEBPS/Text/chapter1.xhtml" "img" "src"
        "../Images/portada.png" =
      build_epub_uri "OEBPS/Text/chapter1.xhtml" "../Images/portada.png" ∧
    epub_uri_closure "OEBPS/Text/chapter1.xhtml" "div" "class" "note" =
      "note" ∧
    build_epub_uri "OEBPS/Text/chapter1.xhtml" "http://example.org" =
      "http://example.org" ∧
    build_epub_uri "OEBPS/Text/chapter1.xhtml" "../Images/portada.png" =
      "epub://" ++ String.intercalate "/"
        (resolve_relative
          ((pathComponents "OEBPS/Text/chapter1.xhtml").dropLast)
          (pathComponents "../Images/portada.png")) ∧
    build_epub_uri "OEBPS/Text/chapter1.xhtml" "../Images/portada.png" =
      "epub://OEBPS/Images/portada.png" := by
  refine ⟨(c9_uri_rewriting "OEBPS/Text/chapter1.xhtml" "img" "src"
      "../Images/portada.png").1 (by simp [rewritten_attr_pairs]),
    (c9_uri_rewriting "OEBPS/Text/chapter1.xhtml" "div" "class" "note").2.1
      (by simp [rewritten_attr_pairs]),
    (c9_uri_rewriting "OEBPS/Text/chapter1.xhtml" "a" "href"
      "http://example.org").2.2.1 rfl,
    (c9_uri_rewriting "OEBPS/Text/chapter1.xhtml" "img" "src"
      "../Images/portada.png").2.2.2 rfl,
    rfl⟩

/-! ## C8: extra CSS injection at `</head>` -/

/-- The spec-side per-event emission of `replace_attrs`: a start tag with
substituted attribute values; an end tag preceded — exactly when the
lowercased name is `head` and the CSS list is non-empty — by the injected
`<style>` element whose CDATA block holds the concatenation of all
`extra_css` entries framed by CSS comment markers; all other events
verbatim. -/
def emit_for (closure : String → String → String → String)
    (extra_css : List String) : InEvent → List OutEvent
  | .startElement name attrs =>
    [OutEvent.startElement name
      (attrs.map (fun a => (a.1, closure name a.1 a.2)))]
  | .endElement n =>
    if strToLower n = "head" ∧ extra_css ≠ [] then
      [OutEvent.startElement "style" [], OutEvent.characters "/*",
        OutEvent.cdata ("*/" ++ String.join extra_css ++ "/*"),
        OutEvent.characters "*/", OutEvent.endElement, OutEvent.endElement]
    else [OutEvent.endElement]
  | .characters s => [OutEvent.characters s]
  | .cdata s => [OutEvent.cdata s]
  | .passthrough k => [OutEvent.passthrough k]
  | .readError => []

/-- Does the event stream contain a reader error? -/
def hasReadError : List InEvent → Bool
  | [] => false
  | InEvent.readError :: _ => true
  | _ :: rest => hasReadError rest

/-- C8: on an error-free event stream, `replace_attrs` emits exactly the
concatenation of the per-event emissions; for every `head` end tag (any
case) the injected `<style>`/CDATA block — wrapping the concatenation of
all accumulated `extra_css` entries, framed by `/*`–`*/` markers — appears
immediately before the head's end-tag event, and only when `extra_css` is
non-empty; every other end tag (or an empty CSS list) emits the bare end
tag. -/
theorem c8_css_injection (evs : List InEvent)
    (closure : String → String → String → String) (css : List String)
    (h : hasReadError evs = false) :
    replace_attrs evs closure css =
      Except.ok (evs.flatMap (emit_for closure css)) ∧
    (∀ n, strToLower n = "head" → css ≠ [] →
      emit_for closure css (InEvent.endElement n) =
        [OutEvent.startElement "style" [], OutEvent.characters "/*",
          OutEvent.cdata ("*/" ++ String.join css ++ "/*"),
          OutEvent.characters "*/", OutEvent.endElement,
          OutEvent.endElement]) ∧
    (∀ n, ¬(strToLower n = "head" ∧ css ≠ []) →
      emit_for closure css (InEvent.endElement n) = [OutEvent.endElement]) := by
  refine ⟨?_, ?_, ?_⟩
  · induction evs with
    | nil => rfl
    | cons e rest ih =>
      cases e with
      | readError => exact absurd h (by rw [hasReadError]; exact fun hh => Bool.noConfusion hh)
      | startElement name attrs =>
        have hrest : hasReadError rest = false := h
        rw [replace_attrs, List.flatMap_cons, ih hrest]
        rfl
      | endElement n =>
        have hrest : hasReadError rest = false := h
        rw [replace_attrs, List.flatMap_cons, ih hrest]
        by_cases hc : strToLower n = "head" ∧ css ≠ []
        · simp [emit_for, hc, Except.map]
        · simp [emit_for, hc, Except.map]
      | characters s =>
        have hrest : hasReadError rest = false := h
        rw [replace_attrs, List.flatMap_cons, ih hrest]
        rfl
      | cdata s =>
        have hrest : hasReadError rest = false := h
        rw [replace_attrs, List.flatMap_cons, ih hrest]
        rfl
      | passthrough k =>
        have hrest : hasReadError rest = false := h
        rw [replace_attrs, List.flatMap_cons, ih hrest]
        rfl
  · intro n h1 h2
    rw [emit_for, if_pos ⟨h1, h2⟩]
  · intro n hnc
    rw [emit_for, if_neg hnc]

/-- The event stream of a minimal content document for the C8 witness. -/
def c8Events : List InEvent :=
  [InEvent.startElement "html" [], InEvent.startElement "head" [],
    InEvent.endElement "HEAD", InEvent.characters "x",
    InEvent.endElement "html"]

/-- One accumulated extra CSS entry, as in the spec's P5 property. -/
def c8Css : List String := ["body{color:red}"]

/-- The identity substitution for the C8 witness. -/
def c8Closure : String → String → String → String := fun _ _ v => v

/-- C8 witness: the rewriter's contract evaluated on the concrete stream —
the mixed-case `</HEAD>` receives the style/CDATA injection holding the
accumulated CSS text, and the non-head end tag does not. -/
theorem c8_css_injection_witness :
    hasReadError c8Events = false ∧
    replace_attrs c8Events c8Closure c8Css =
      Except.ok (c8Events.flatMap (emit_for c8Closure c8Css)) ∧
    emit_for c8Closure c8Css (InEvent.endElement "HEAD") =
      [OutEvent.startElement "style" [], OutEvent.characters "/*",
        OutEvent.cdata ("*/" ++ String.join c8Css ++ "/*"),
        OutEvent.characters "*/", OutEvent.endElement,
        OutEvent.endElement] ∧
    emit_for c8Closure c8Css (InEvent.endElement "html") =
      [OutEvent.endElement] := by
  refine ⟨rfl, (c8_css_injection c8Events c8Closure c8Css rfl).1,
    (c8_css_injection c8Events c8Closure c8Css rfl).2.1 "HEAD" rfl
      (by simp [c8Css]),
    (c8_css_injection c8Events c8Closure c8Css rfl).2.2 "html" ?_⟩
  intro hc
  exact absurd hc.1 (by decide)

/-! ## C5: navPoint dropping and child recursion -/

mutual

/-- The spec-side variant of `get_navpoints` that collects a navPoint's
children by recursion BEFORE the drop decision, discarding them together
with the navPoint when a required field is missing. -/
def get_navpoints_eager (root_base : String) : XMLNode → List NavPoint
  | .mk _ _ _ _ children =>
    sortNav (navpointsEagerOf root_base children)

/-- The per-level loop of `get_navpoints_eager`: the recursive collection of
children happens first, the keep/drop decision afterwards. -/
def navpointsEagerOf (root_base : String) : List XMLNode → List NavPoint
  | [] => []
  | item :: rest =>
    (if item.name.local_name = "navPoint" then
      let children := get_navpoints_eager root_base item
      match navpoint_play_order item, navpoint_content root_base item,
          navpoint_label item with
      | some o, some c, some l => [NavPoint.mk l c children o]
      | _, _, _ => []
    else []) ++ navpointsEagerOf root_base rest

end

mutual

/-- Recursing into children before the drop decision produces exactly what
the source produces (per node). -/
theorem get_navpoints_eager_eq (root_base : String) :
    ∀ node : XMLNode,
      get_navpoints_eager root_base node = EpubDoc.get_navpoints root_base node
  | .mk nm ats t cd children => by
    rw [get_navpoints_eager, EpubDoc.get_navpoints,
      navpointsEagerOf_eq root_base children]

/-- Recursing into children before the drop decision produces exactly what
the source produces (per level). -/
theorem navpointsEagerOf_eq (root_base : String) :
    ∀ l : List XMLNode,
      navpointsEagerOf root_base l = EpubDoc.navpointsOf root_base l
  | [] => by rw [navpointsEagerOf, EpubDoc.navpointsOf]
  | item :: rest => by
    rw [navpointsEagerOf, EpubDoc.navpointsOf,
      navpointsEagerOf_eq root_base rest]
    congr 1
    by_cases h : item.name.local_name = "navPoint"
    · rw [if_pos h, if_pos h]
      cases hp : navpoint_play_order item <;>
        cases hc : navpoint_content root_base item <;>
        cases hl : navpoint_label item <;>
        simp [get_navpoints_eager_eq root_base item]
    · rw [if_neg h, if_neg h]

end

/-- The per-level loop of the source is a `filterMap`: each child
contributes its kept navPoint or nothing. -/
theorem navpointsOf_eq_filterMap (root_base : String) :
    ∀ l : List XMLNode,
      EpubDoc.navpointsOf root_base l = l.filterMap (fun item =>
        if item.name.local_name = "navPoint" then
          match navpoint_play_order item, navpoint_content root_base item,
              navpoint_label item with
          | some o, some c, some lb =>
            some (NavPoint.mk lb c (EpubDoc.get_navpoints root_base item) o)
          | _, _, _ => none
        else none)
  | [] => by rw [EpubDoc.navpointsOf, List.filterMap_nil]
  | item :: rest => by
    rw [EpubDoc.navpointsOf, List.filterMap_cons,
      navpointsOf_eq_filterMap root_base rest]
    by_cases h : item.name.local_name = "navPoint"
    · simp only [if_pos h]
      cases hp : navpoint_play_order item <;>
        cases hc : navpoint_content root_base item <;>
        cases hl : navpoint_label item <;> simp
    · simp only [if_neg h]
      simp

/-- C5: a navPoint missing a numeric `playOrder`, a `content/@src` or a
`navLabel` first-child text contributes nothing to its level (it is
dropped, never an error — the collection is a total function into a plain
list), and collecting the children of every navPoint by recursion before
the drop decision (the spec's description) yields exactly the same result
as the source, which recurses only for kept navPoints. -/
theorem c5_navpoint_drop (root_base : String) (parent : XMLNode) :
    get_navpoints_eager root_base parent =
      EpubDoc.get_navpoints root_base parent ∧
    EpubDoc.get_navpoints root_base parent =
      sortNav (parent.children.filterMap (fun item =>
        if item.name.local_name = "navPoint" then
          match navpoint_play_order item, navpoint_content root_base item,
              navpoint_label item with
          | some o, some c, some lb =>
            some (NavPoint.mk lb c (EpubDoc.get_navpoints root_base item) o)
          | _, _, _ => none
        else none)) := by
  refine ⟨get_navpoints_eager_eq root_base parent, ?_⟩
  cases parent with
  | mk nm ats t cd children =>
    rw [EpubDoc.get_navpoints]
    show sortNav (EpubDoc.navpointsOf root_base children) = _
    rw [navpointsOf_eq_filterMap root_base children]
    rfl

/-- A well-formed navPoint node for the C5 witness. -/
def c5GoodNav : XMLNode :=
  XMLNode.mk ⟨"navPoint", none⟩ [⟨⟨"playOrder", none⟩, "1"⟩] none none
    [XMLNode.mk ⟨"content", none⟩ [⟨⟨"src", none⟩, "Text/ch1.xhtml"⟩] none none [],
      XMLNode.mk ⟨"navLabel", none⟩ [] none none
        [XMLNode.mk ⟨"text", none⟩ [] (some "Chapter 1") none []]]

/-- A navPoint with no `playOrder` but with a well-formed nested child, for
the C5 witness: it is dropped and its child appears nowhere. -/
def c5BadNav : XMLNode :=
  XMLNode.mk ⟨"navPoint", none⟩ [] none none
    [XMLNode.mk ⟨"content", none⟩ [⟨⟨"src", none⟩, "Text/ch2.xhtml"⟩] none none [],
      XMLNode.mk ⟨"navLabel", none⟩ [] none none
        [XMLNode.mk ⟨"text", none⟩ [] (some "Chapter 2") none []],
      c5GoodNav]

/-- A `navMap` holding one well-formed and one malformed navPoint. -/
def c5NavMap : XMLNode :=
  XMLNode.mk ⟨"navMap", none⟩ [] none none [c5BadNav, c5GoodNav]

/-- C5 witness: the equivalence applied to the concrete `navMap`, plus the
evaluation showing the malformed navPoint is dropped while its well-formed
sibling is kept. -/
theorem c5_navpoint_drop_witness :
    get_navpoints_eager "OEBPS" c5NavMap = EpubDoc.get_navpoints "OEBPS" c5NavMap ∧
    EpubDoc.get_navpoints "OEBPS" c5NavMap =
      [NavPoint.mk "Chapter 1" "OEBPS/Text/ch1.xhtml" [] 1] :=
  ⟨(c5_navpoint_drop "OEBPS" c5NavMap).1, rfl⟩

/-! ## C6: every toc level is sorted by play_order -/

/-- Adjacent-sibling sortedness of one level: for all adjacent `a, b`,
`a.play_order ≤ b.play_order`. -/
def pairsSortedNav : List NavPoint → Bool
  | a :: b :: rest => navLe a b && pairsSortedNav (b :: rest)
  | _ => true

mutual

/-- Every level below a navPoint (its children list and, recursively, all
deeper levels) is sorted. -/
def navTreeSorted : NavPoint → Bool
  | .mk _ _ children _ => pairsSortedNav children && navChildrenSorted children

/-- All trees of a forest are sorted below. -/
def navChildrenSorted : List NavPoint → Bool
  | [] => true
  | n :: rest => navTreeSorted n && navChildrenSorted rest

end

/-- The whole toc forest is sorted: the top level and every deeper level. -/
def tocForestSorted (toc : List NavPoint) : Bool :=
  pairsSortedNav toc && navChildrenSorted toc

theorem navLe_of_navLt {a b : NavPoint} (h : navLt a b = true) :
    navLe a b = true := by
  simp only [navLt, Nat.blt_eq] at h
  simp only [navLe, Nat.ble_eq]
  omega

theorem navLe_of_not_navLt {a b : NavPoint} (h : navLt b a = false) :
    navLe a b = true := by
  have h' : ¬ b.play_order < a.play_order := by
    intro hlt
    have : navLt b a = true := by
      simp only [navLt, Nat.blt_eq]
      exact hlt
    rw [this] at h
    exact Bool.noConfusion h
  simp only [navLe, Nat.ble_eq]
  omega

theorem navLe_trans {a b c : NavPoint} (h1 : navLe a b = true)
    (h2 : navLe b c = true) : navLe a c = true := by
  simp only [navLe, Nat.ble_eq] at *
  omega

theorem mem_insertNav (a c : NavPoint) : ∀ l : List NavPoint,
    c ∈ insertNav a l ↔ c = a ∨ c ∈ l
  | [] => by simp [insertNav]
  | b :: rest => by
    rw [insertNav]
    by_cases h : navLt b a = true
    · rw [if_pos h]
      rw [List.mem_cons, mem_insertNav a c rest, List.mem_cons]
      tauto
    · rw [if_neg h]
      rw [List.mem_cons, List.mem_cons]

theorem pairwise_insertNav (a : NavPoint) :
    ∀ l : List NavPoint, l.Pairwise (fun x y => navLe x y = true) →
      (insertNav a l).Pairwise (fun x y => navLe x y = true)
  | [], _ => by simp [insertNav]
  | b :: rest, h => by
    rw [insertNav]
    rcases List.pairwise_cons.mp h with ⟨hb, hrest⟩
    by_cases hlt : navLt b a = true
    · rw [if_pos hlt]
      refine List.pairwise_cons.mpr ⟨?_, pairwise_insertNav a rest hrest⟩
      intro c hc
      rcases (mem_insertNav a c rest).mp hc with rfl | hcr
      · exact navLe_of_navLt hlt
      · exact hb c hcr
    · rw [if_neg hlt]
      have hab : navLe a b = true :=
        navLe_of_not_navLt (Bool.not_eq_true _ ▸ hlt)
      refine List.pairwise_cons.mpr ⟨?_, h⟩
      intro c hc
      rcases List.mem_cons.mp hc with rfl | hcr
      · exact hab
      · exact navLe_trans hab (hb c hcr)

theorem pairwise_sortNav : ∀ l : List NavPoint,
    (sortNav l).Pairwise (fun x y => navLe x y = true)
  | [] => List.Pairwise.nil
  | a :: rest => pairwise_insertNav a (sortNav rest) (pairwise_sortNav rest)

theorem mem_sortNav (c : NavPoint) : ∀ l : List NavPoint,
    c ∈ sortNav l ↔ c ∈ l
  | [] => Iff.rfl
  | a :: rest => by
    rw [sortNav, mem_insertNav, mem_sortNav c rest, List.mem_cons]

theorem pairsSortedNav_of_pairwise : ∀ l : List NavPoint,
    l.Pairwise (fun x y => navLe x y = true) → pairsSortedNav l = true
  | [], _ => rfl
  | [a], _ => rfl
  | a :: b :: rest, h => by
    rw [pairsSortedNav]
    rcases List.pairwise_cons.mp h with ⟨ha, h2⟩
    rw [ha b (List.mem_cons_self b rest),
      pairsSortedNav_of_pairwise (b :: rest) h2]
    rfl

theorem pairsSortedNav_sortNav (l : List NavPoint) :
    pairsSortedNav (sortNav l) = true :=
  pairsSortedNav_of_pairwise (sortNav l) (pairwise_sortNav l)

theorem navChildrenSorted_eq_all : ∀ l : List NavPoint,
    navChildrenSorted l = l.all navTreeSorted
  | [] => rfl
  | n :: rest => by
    rw [navChildrenSorted, List.all_cons, navChildrenSorted_eq_all rest]

/-- One-step unfolding of `get_navpoints` through the node accessor. -/
theorem get_navpoints_unfold (root_base : String) (node : XMLNode) :
    EpubDoc.get_navpoints root_base node =
      sortNav (EpubDoc.navpointsOf root_base node.children) := by
  cases node with
  | mk nm ats t cd children => rw [EpubDoc.get_navpoints]; rfl

mutual

/-- Every navPoint produced by `get_navpoints` has all its levels
sorted. -/
theorem navTreeSorted_of_get_navpoints (root_base : String) :
    ∀ (node : XMLNode) (n : NavPoint),
      n ∈ EpubDoc.get_navpoints root_base node → navTreeSorted n = true
  | .mk nm ats t cd children, n, hn => by
    rw [get_navpoints_unfold] at hn
    exact navTreeSorted_of_navpointsOf root_base children n
      ((mem_sortNav n _).mp hn)

/-- Every navPoint produced by the per-level loop has all its levels
sorted. -/
theorem navTreeSorted_of_navpointsOf (root_base : String) :
    ∀ (l : List XMLNode) (n : NavPoint),
      n ∈ EpubDoc.navpointsOf root_base l → navTreeSorted n = true
  | [], n, hn => by
    rw [EpubDoc.navpointsOf] at hn
    exact absurd hn (List.not_mem_nil n)
  | item :: rest, n, hn => by
    rw [EpubDoc.navpointsOf] at hn
    rcases List.mem_append.mp hn with h1 | h2
    · by_cases hname : item.name.local_name = "navPoint"
      · rw [if_pos hname] at h1
        cases hp : navpoint_play_order item <;> rw [hp] at h1 <;>
          cases hc : navpoint_content root_base item <;> rw [hc] at h1 <;>
          cases hl : navpoint_label item <;> rw [hl] at h1 <;>
          try exact absurd h1 (List.not_mem_nil n)
        next o c lb =>
          have hn' : n = NavPoint.mk lb c
              (EpubDoc.get_navpoints root_base item) o := by
            simpa using h1
          subst hn'
          rw [navTreeSorted]
          rw [Bool.and_eq_true]
          refine ⟨?_, ?_⟩
          · rw [get_navpoints_unfold]
            exact pairsSortedNav_sortNav _
          · rw [navChildrenSorted_eq_all, List.all_eq_true]
            intro m hm
            exact navTreeSorted_of_get_navpoints root_base item m hm
      · rw [if_neg hname] at h1
        exact absurd h1 (List.not_mem_nil n)
    · exact navTreeSorted_of_navpointsOf root_base rest n h2

end

/-- C6: after `fill_toc` completes (from any state whose toc forest is
already level-sorted — in particular the empty toc `open` starts from), at
every level of the resulting toc forest adjacent siblings are ascending by
`play_order`: the top level is sorted by the final `toc.sort()`, and every
children list was sorted by `get_navpoints`' per-level sort. -/
theorem c6_toc_forest_sorted (xmlparse : List Nat → Option XMLNode)
    (d : DocState) (id : String) (h : tocForestSorted d.toc = true) :
    tocForestSorted (EpubDoc.fill_toc xmlparse d id).toc = true := by
  unfold EpubDoc.fill_toc
  split
  · exact h
  · split
    · exact h
    · split
      · exact h
      · dsimp only
        split
        · exact h
        · next mapnode hm =>
          show tocForestSorted
            (sortNav (d.toc ++ EpubDoc.get_navpoints d.root_base mapnode)) = true
          unfold tocForestSorted
          rw [Bool.and_eq_true]
          refine ⟨pairsSortedNav_sortNav _, ?_⟩
          rw [navChildrenSorted_eq_all, List.all_eq_true]
          intro n hn
          rcases List.mem_append.mp ((mem_sortNav n _).mp hn) with h1 | h2
          · have h' := (Bool.and_eq_true _ _).mp h |>.2
            rw [navChildrenSorted_eq_all, List.all_eq_true] at h'
            exact h' n h1
          · exact navTreeSorted_of_get_navpoints d.root_base mapnode n h2

/-- A nested navPoint (`playOrder` 3) for the C6 witness. -/
def c6NavChild : XMLNode :=
  XMLNode.mk ⟨"navPoint", none⟩ [⟨⟨"playOrder", none⟩, "3"⟩] none none
    [XMLNode.mk ⟨"content", none⟩ [⟨⟨"src", none⟩, "Text/ch3.xhtml"⟩] none none [],
      XMLNode.mk ⟨"navLabel", none⟩ [] none none
        [XMLNode.mk ⟨"text", none⟩ [] (some "Three") none []]]

/-- A navPoint with `playOrder` 2, listed first in document order. -/
def c6Nav1 : XMLNode :=
  XMLNode.mk ⟨"navPoint", none⟩ [⟨⟨"playOrder", none⟩, "2"⟩] none none
    [XMLNode.mk ⟨"content", none⟩ [⟨⟨"src", none⟩, "Text/ch2.xhtml"⟩] none none [],
      XMLNode.mk ⟨"navLabel", none⟩ [] none none
        [XMLNode.mk ⟨"text", none⟩ [] (some "Two") none []]]

/-- A navPoint with `playOrder` 1, listed second in document order, holding
the nested navPoint. -/
def c6Nav2 : XMLNode :=
  XMLNode.mk ⟨"navPoint", none⟩ [⟨⟨"playOrder", none⟩, "1"⟩] none none
    [XMLNode.mk ⟨"content", none⟩ [⟨⟨"src", none⟩, "Text/ch1.xhtml"⟩] none none [],
      XMLNode.mk ⟨"navLabel", none⟩ [] none none
        [XMLNode.mk ⟨"text", none⟩ [] (some "One") none []],
      c6NavChild]

/-- The NCX document root for the C6 witness: navPoints out of document
order relative to their play orders. -/
def c6NcxRoot : XMLNode :=
  XMLNode.mk ⟨"ncx", none⟩ [] none none
    [XMLNode.mk ⟨"navMap", none⟩ [] none none [c6Nav1, c6Nav2]]

/-- The archive for the C6 witness: only the NCX entry. -/
def c6Zip : ZipArchive :=
  ⟨fun name =>
    if name = "OEBPS/toc.ncx" then ZipEntryOutcome.found [7]
    else ZipEntryOutcome.notFound⟩

/-- The collaborator parse function for the C6 witness. -/
def c6Parse : List Nat → Option XMLNode :=
  fun b => if b = [7] then some c6NcxRoot else none

/-- The document state entering `fill_toc` for the C6 witness. -/
def c6Doc : DocState where
  archive := c6Zip
  current := 0
  version := EpubVersion.version2_0
  spine := []
  resources := [("ncx", ("OEBPS/toc.ncx", "application/x-dtbncx+xml"))]
  toc := []
  toc_title := ""
  metadata := []
  root_base := "OEBPS"
  root_file := "OEBPS/content.opf"
  extra_css := []
  unique_identifier := none
  cover_id := none

/-- C6 witness: a concrete `fill_toc` run over out-of-order navPoints
yields a toc forest sorted at every level (and the toc is genuinely
non-empty: two top-level entries, re-ordered to play orders 1, 2). -/
theorem c6_toc_forest_sorted_witness :
    tocForestSorted c6Doc.toc = true ∧
    tocForestSorted (EpubDoc.fill_toc c6Parse c6Doc "ncx").toc = true ∧
    ((EpubDoc.fill_toc c6Parse c6Doc "ncx").toc.map NavPoint.play_order =
      [1, 2]) :=
  ⟨rfl, c6_toc_forest_sorted c6Parse c6Doc "ncx" rfl, rfl⟩
